import Mathlib

/-!
Verification of the JetLag hide-and-seek card game round engine.

Shallow embedding of:
  * `src/lib/deck.ts`   — card taxonomy, `buildHiderDeck`, `baseType`
  * `src/lib/rules.ts`  — `getDrawKeep` reward table
  * `src/app/room/[code]/hide/page.tsx` — `shuffle`, `drawWithReshuffle`,
    `submitAnswerAndCreateDraw`, `confirmKeepSelection`,
    `discardSelectedFromHand`, `confirmPlayDiscardDraw`
  * `src/app/room/[code]/seek/page.tsx` — `sendQuestion`

Randomness (`Math.random`) is embedded as an explicit stream
`rand : Nat → Nat`; the Fisher–Yates loop of `shuffle` consumes
`rand i % (i+1)` at loop index `i`, which ranges over exactly the
values `Math.floor(Math.random() * (i + 1))` can take.
Mutation of the external store is embedded as a transaction:
each operation maps a state to either an error (no mutation)
or the fully updated state.
-/

namespace JetLag

/-! ## rules.ts : categories and the draw/keep reward table -/

inductive Category
  | MATCHING
  | MEASURING
  | RADAR
  | THERMO
  | PHOTO
  | TENTACLE
deriving DecidableEq

def categoryName : Category → String
  | .MATCHING => "MATCHING"
  | .MEASURING => "MEASURING"
  | .RADAR => "RADAR"
  | .THERMO => "THERMO"
  | .PHOTO => "PHOTO"
  | .TENTACLE => "TENTACLE"

def categoryNames : List String :=
  ["MATCHING", "MEASURING", "RADAR", "THERMO", "PHOTO", "TENTACLE"]

structure DrawKeep where
  draw : Nat
  keep : Nat
deriving DecidableEq

/-- `getDrawKeep(category, opts)` from rules.ts.  The optional
`opts.overflowingChalice` is embedded as `opts : Option Bool`;
`oc := !!opts?.overflowingChalice` is `opts.getD false`. -/
def getDrawKeep (category : Category) (opts : Option Bool) : DrawKeep :=
  let oc := opts.getD false
  if oc then
    match category with
    | .MATCHING => ⟨4, 1⟩
    | .MEASURING => ⟨4, 1⟩
    | .THERMO => ⟨3, 1⟩
    | .RADAR => ⟨3, 1⟩
    | .PHOTO => ⟨2, 1⟩
    | .TENTACLE => ⟨5, 2⟩
  else
    match category with
    | .MATCHING => ⟨3, 1⟩
    | .MEASURING => ⟨3, 1⟩
    | .RADAR => ⟨2, 1⟩
    | .THERMO => ⟨2, 1⟩
    | .PHOTO => ⟨1, 1⟩
    | .TENTACLE => ⟨4, 2⟩

/-- `getDrawKeep` applied to a raw category string, mirroring the
untyped control flow of the source: when `oc` holds the first
`switch` runs and — for a string matching no case — falls through
to the second `switch`; a string matching no case of the second
`switch` makes the function return `undefined` (here `none`).
There is no `throw` in the source function. -/
def getDrawKeepRaw (category : String) (opts : Option Bool) : Option DrawKeep :=
  let oc := opts.getD false
  let fromOc : Option DrawKeep :=
    if oc then
      if category = "MATCHING" then some ⟨4, 1⟩
      else if category = "MEASURING" then some ⟨4, 1⟩
      else if category = "THERMO" then some ⟨3, 1⟩
      else if category = "RADAR" then some ⟨3, 1⟩
      else if category = "PHOTO" then some ⟨2, 1⟩
      else if category = "TENTACLE" then some ⟨5, 2⟩
      else none
    else none
  match fromOc with
  | some r => some r
  | none =>
    if category = "MATCHING" ∨ category = "MEASURING" then some ⟨3, 1⟩
    else if category = "RADAR" ∨ category = "THERMO" then some ⟨2, 1⟩
    else if category = "PHOTO" then some ⟨1, 1⟩
    else if category = "TENTACLE" then some ⟨4, 2⟩
    else none

inductive RulesError
  | InvalidCategoryError
deriving DecidableEq

/-- Modelled from the spec: `drawKeepFor` as §4.4 describes it — the
code has no `InvalidCategoryError`; this definition follows the
spec's words ("an unrecognized category is a programming error
(`InvalidCategoryError`)") for comparison with `getDrawKeepRaw`. -/
def specDrawKeepFor (category : String) (opts : Option Bool) : Except RulesError DrawKeep :=
  let oc := opts.getD false
  if oc then
    if category = "MATCHING" ∨ category = "MEASURING" then .ok ⟨4, 1⟩
    else if category = "THERMO" ∨ category = "RADAR" then .ok ⟨3, 1⟩
    else if category = "PHOTO" then .ok ⟨2, 1⟩
    else if category = "TENTACLE" then .ok ⟨5, 2⟩
    else .error .InvalidCategoryError
  else
    if category = "MATCHING" ∨ category = "MEASURING" then .ok ⟨3, 1⟩
    else if category = "RADAR" ∨ category = "THERMO" then .ok ⟨2, 1⟩
    else if category = "PHOTO" then .ok ⟨1, 1⟩
    else if category = "TENTACLE" then .ok ⟨4, 2⟩
    else .error .InvalidCategoryError

/-! ## deck.ts : the 100-card hider deck -/

/-- `pad4` from deck.ts: `String(n).padStart(4, "0")`. -/
def pad4 (n : Nat) : String :=
  let s := toString n
  String.mk (List.replicate (4 - s.length) '0' ++ s.data)

/-- `makeInstances(base, count, start)` from deck.ts: `count` identifiers
`` `${base}::${pad4(serial++)}` `` starting at serial `start`; also
returns the next free serial. -/
def makeInstances (base : String) (count : Nat) (start : Nat) : List String × Nat :=
  ((List.range count).map fun i => base ++ "::" ++ pad4 (start + i), start + count)

/-- `COUNTS.CURSES` from deck.ts: the 24 named curses, in order. -/
def CURSES : List String :=
  ["CURSE_ZOOLOGIST", "CURSE_UNGUIDED_TOURIST", "CURSE_ENDLESS_TUMBLE",
   "CURSE_HIDDEN_HANGMAN", "CURSE_OVERFLOWING_CHALICE", "CURSE_MEDIOCRE_TRAVEL_AGENT",
   "CURSE_LUXURY_CAR", "CURSE_U_TURN", "CURSE_BRIDGE_TROLL", "CURSE_WATER_WEIGHT",
   "CURSE_JAMMED_DOOR", "CURSE_CAIRN", "CURSE_URBAN_EXPLORER",
   "CURSE_IMPRESSIONABLE_CONSUMER", "CURSE_EGG_PARTNER", "CURSE_DISTANT_CUISINE",
   "CURSE_RIGHT_TURN", "CURSE_LABYRINTH", "CURSE_BIRD_GUIDE", "CURSE_SPOTTY_MEMORY",
   "CURSE_LEMON_PHYLACTERY", "CURSE_DRAINED_BRAIN", "CURSE_RANSOM_NOTE",
   "CURSE_GAMBLERS_FEET"]

/-- The `(base, count)` blocks of `buildHiderDeck`, in source order:
time tiers, then powerups, then the curses (one each). -/
def deckBlocks : List (String × Nat) :=
  [("TIME_RED", 25), ("TIME_ORANGE", 15), ("TIME_YELLOW", 10),
   ("TIME_GREEN", 3), ("TIME_BLUE", 2),
   ("RANDOMIZE", 4), ("VETO", 4), ("DUPLICATE", 2), ("MOVE", 1),
   ("DISCARD_1_DRAW_2", 4), ("DISCARD_2_DRAW_3", 4), ("DRAW_1_EXPAND_HAND", 2)]
  ++ CURSES.map fun c => (c, 1)

/-- `buildHiderDeck()` from deck.ts: one global serial counter starting
at 1 threaded through all blocks, concatenating the instances. -/
def buildHiderDeck : List String :=
  (deckBlocks.foldl
    (fun (acc : List String × Nat) bc =>
      let r := makeInstances bc.1 bc.2 acc.2
      (acc.1 ++ r.1, r.2))
    ([], 1)).1

/-- The trailing guard of `buildHiderDeck`: the source throws unless the
deck has exactly 100 cards; `none` embeds the throw. -/
def buildHiderDeckChecked : Option (List String) :=
  if buildHiderDeck.length = 100 then some buildHiderDeck else none

/-- `baseType(cardId)` from deck.ts: the prefix up to the first `"::"`,
or the whole id when no `"::"` occurs (`indexOf` returning -1). -/
def baseTypeChars : List Char → List Char
  | [] => []
  | ':' :: ':' :: _ => []
  | c :: cs => c :: baseTypeChars cs

def baseType (cardId : String) : String :=
  String.mk (baseTypeChars cardId.data)

/-- The serial suffix after the first `"::"` (empty when none occurs);
classifier for stating the serial-counter property of the deck. -/
def serialChars : List Char → List Char
  | [] => []
  | ':' :: ':' :: rest => rest
  | _ :: cs => serialChars cs

def digitsToNat : List Char → Nat → Nat
  | [], acc => acc
  | c :: cs, acc => digitsToNat cs (acc * 10 + (c.toNat - '0'.toNat))

def serialOf (cardId : String) : Nat :=
  digitsToNat (serialChars cardId.data) 0

/-- The base-type sequence the deck is expected to classify to:
contiguous blocks in the fixed source order. -/
def expectedBaseTypes : List String :=
  deckBlocks.flatMap fun bc => List.replicate bc.2 bc.1

/-! ## hide/page.tsx : shuffle and drawWithReshuffle -/

/-- One swap `[a[i], a[j]] = [a[j], a[i]]` of the Fisher–Yates loop;
out-of-range indices leave the list unchanged (unreachable in the
loop, which keeps `0 ≤ j ≤ i < length`). -/
def swapL {α : Type} (l : List α) (i j : Nat) : List α :=
  match l[i]?, l[j]? with
  | some x, some y => (l.set i y).set j x
  | _, _ => l

/-- `shuffle(arr)` from hide/page.tsx (Fisher–Yates): the loop runs
`i = length-1, …, 1` and swaps index `i` with `j = rand i % (i+1)`,
the embedding of `Math.floor(Math.random() * (i + 1))`. -/
def fisherYatesAux {α : Type} (rand : Nat → Nat) : Nat → List α → List α
  | 0, a => a
  | i + 1, a => fisherYatesAux rand i (swapL a (i + 1) (rand (i + 1) % (i + 1 + 1)))

def shuffle {α : Type} (rand : Nat → Nat) (arr : List α) : List α :=
  fisherYatesAux rand (arr.length - 1) arr

structure DrawResult where
  drawn : List String
  newDraw : List String
  newDiscard : List String
deriving DecidableEq

/-- `drawWithReshuffle(drawPile, discardPile, n)` from hide/page.tsx:
if the draw pile is shorter than `n` and the discard pile is
non-empty, append the shuffled discard pile and empty it; then
`drawn = dp.slice(0, n)`, `newDraw = dp.slice(n)`. -/
def drawWithReshuffle (rand : Nat → Nat) (drawPile discardPile : List String)
    (n : Nat) : DrawResult :=
  if drawPile.length < n ∧ 0 < discardPile.length then
    let dp := drawPile ++ shuffle rand discardPile
    ⟨dp.take n, dp.drop n, []⟩
  else
    ⟨drawPile.take n, drawPile.drop n, discardPile⟩

/-! ## Round state and the operations of hide/page.tsx and seek/page.tsx

Each operation is embedded as one transaction on a `RoundState`
snapshot: an error return leaves the store untouched, an `ok` return
carries the fully updated state.  Guard failures are represented by
error values named after the spec's error kinds; the source reports
them through `setStatusMsg` and an early `return`. -/

structure PendingDraw where
  drawnCards : List String
  keepCount : Nat
deriving DecidableEq

structure RoundState where
  drawPile : List String
  discardPile : List String
  hand : List String
  pendingDraw : Option PendingDraw
  activeQuestionId : Option Nat
  questions : List Nat
deriving DecidableEq

inductive EngineError
  | TurnLockedError
  | DrawAwaitingPickError
  | NoPendingDrawError
  | WrongKeepCountError
  | PowerupNotInHandError
  | PowerupInSelectionError
  | WrongDiscardCountError
  | InsufficientHandError
deriving DecidableEq

inductive TxResult (α : Type)
  | ok : α → TxResult α
  | error : EngineError → TxResult α
deriving DecidableEq

/-- `uniq(arr)` from hide/page.tsx: `Array.from(new Set(arr))` keeps
the first occurrence of each element, in order. -/
def uniqAux : List String → List String → List String
  | _, [] => []
  | seen, c :: rest =>
    if seen.contains c then uniqAux seen rest
    else c :: uniqAux (c :: seen) rest

def uniq (arr : List String) : List String :=
  uniqAux [] arr

/-- `sendQuestion` from seek/page.tsx, reduced to the round fields it
touches: refuses when `active_question_id` is set, otherwise inserts
the question row and points `active_question_id` at it. -/
def sendQuestion (st : RoundState) (qid : Nat) : TxResult RoundState :=
  match st.activeQuestionId with
  | some _ => .error .TurnLockedError
  | none =>
    .ok { st with activeQuestionId := some qid, questions := st.questions ++ [qid] }

/-- `submitAnswerAndCreateDraw` from hide/page.tsx: refuses while a
draw is awaiting a pick; otherwise computes `{draw, keep}` from
`getDrawKeep`, draws with reshuffle, persists the new piles and
creates the `AWAITING_PICK` pending draw holding the drawn cards. -/
def submitAnswerAndCreateDraw (st : RoundState) (rand : Nat → Nat)
    (category : Category) (opts : Option Bool) : TxResult RoundState :=
  match st.pendingDraw with
  | some _ => .error .DrawAwaitingPickError
  | none =>
    let dk := getDrawKeep category opts
    let r := drawWithReshuffle rand st.drawPile st.discardPile dk.draw
    .ok { st with drawPile := r.newDraw, discardPile := r.newDiscard,
                  pendingDraw := some ⟨r.drawn, dk.keep⟩ }

/-- `confirmKeepSelection` from hide/page.tsx: `sel` is
`Array.from(selectedKeep)`.  The only validation is
`kept.length !== pendingDraw.keep_count`; then the unkept drawn cards
go to the discard pile, `uniq(hand ++ kept)` becomes the hand, the
pending draw completes and the turn lock is cleared. -/
def confirmKeepSelection (st : RoundState) (sel : List String) : TxResult RoundState :=
  match st.pendingDraw with
  | none => .error .NoPendingDrawError
  | some pd =>
    if sel.length ≠ pd.keepCount then .error .WrongKeepCountError
    else
      let unkept := pd.drawnCards.filter fun c => !(sel.contains c)
      .ok { st with hand := uniq (st.hand ++ sel),
                    discardPile := st.discardPile ++ unkept,
                    pendingDraw := none,
                    activeQuestionId := none }

/-- `discardSelectedFromHand` from hide/page.tsx: refuses while a draw
is awaiting a pick; an empty selection is a silent no-op; otherwise
the selected cards leave the hand and are appended to the discard
pile. -/
def discardSelectedFromHand (st : RoundState) (sel : List String) : TxResult RoundState :=
  match st.pendingDraw with
  | some _ => .error .DrawAwaitingPickError
  | none =>
    if sel.length = 0 then .ok st
    else
      .ok { st with hand := st.hand.filter fun c => !(sel.contains c),
                    discardPile := st.discardPile ++ sel }

inductive PowerupMode
  | discard1draw2
  | discard2draw3
deriving DecidableEq

/-- The `powerupCard` string of the mode (the source compares hand
entries against this bare base-type string). -/
def modeCard : PowerupMode → String
  | .discard1draw2 => "DISCARD_1_DRAW_2"
  | .discard2draw3 => "DISCARD_2_DRAW_3"

def modeDiscardReq : PowerupMode → Nat
  | .discard1draw2 => 1
  | .discard2draw3 => 2

def modeDrawGain : PowerupMode → Nat
  | .discard1draw2 => 2
  | .discard2draw3 => 3

/-- The removal loop of `confirmPlayDiscardDraw`: drops the first
occurrence of the powerup card (flag `removedPowerup`) and every
card in the discard selection. -/
def removeCostLoop (p : String) (sel : List String) : Bool → List String → List String
  | _, [] => []
  | removed, c :: rest =>
    if ¬ removed ∧ c = p then removeCostLoop p sel true rest
    else if sel.contains c then removeCostLoop p sel removed rest
    else c :: removeCostLoop p sel removed rest

/-- `confirmPlayDiscardDraw` from hide/page.tsx: guards in source
order, then hand minus (powerup + chosen), the cost appended to the
discard pile, a reshuffling draw of `drawGain`, and all drawn cards
appended straight to the hand. -/
def confirmPlayDiscardDraw (st : RoundState) (rand : Nat → Nat)
    (mode : PowerupMode) (sel : List String) : TxResult RoundState :=
  match st.pendingDraw with
  | some _ => .error .DrawAwaitingPickError
  | none =>
    if ¬ st.hand.contains (modeCard mode) then .error .PowerupNotInHandError
    else if sel.contains (modeCard mode) then .error .PowerupInSelectionError
    else if sel.length ≠ modeDiscardReq mode then .error .WrongDiscardCountError
    else if (st.hand.filter fun c => c ≠ modeCard mode).length < modeDiscardReq mode then
      .error .InsufficientHandError
    else
      let newHand := removeCostLoop (modeCard mode) sel false st.hand
      let discardPileAfterCost := st.discardPile ++ (modeCard mode :: sel)
      let r := drawWithReshuffle rand st.drawPile discardPileAfterCost (modeDrawGain mode)
      .ok { st with hand := newHand ++ r.drawn,
                    drawPile := r.newDraw,
                    discardPile := r.newDiscard }

/-- Round creation from the home page: a freshly shuffled full deck,
empty discard pile, empty hand, no pending draw, no active question. -/
def initState (rand : Nat → Nat) : RoundState :=
  { drawPile := shuffle rand buildHiderDeck
    discardPile := []
    hand := []
    pendingDraw := none
    activeQuestionId := none
    questions := [] }

/-- The cards held by an `AWAITING_PICK` pending draw (none otherwise). -/
def pendingCards (st : RoundState) : List String :=
  match st.pendingDraw with
  | none => []
  | some pd => pd.drawnCards

/-- Every card observable in a round: draw pile, discard pile, hand,
and the cards of an unresolved draw. -/
def cards (st : RoundState) : List String :=
  st.drawPile ++ st.discardPile ++ st.hand ++ pendingCards st

/-- One valid operation on a round.  The selection side conditions are
those the hide-page UI guarantees: `selectedKeep` is a set toggled
only over the drawn cards, and `selectedDiscard` is a set toggled
only over the hand. -/
inductive ValidStep : RoundState → RoundState → Prop
  | openQ (st st' : RoundState) (qid : Nat)
      (h : sendQuestion st qid = .ok st') : ValidStep st st'
  | answer (st st' : RoundState) (rand : Nat → Nat) (category : Category)
      (opts : Option Bool)
      (h : submitAnswerAndCreateDraw st rand category opts = .ok st') :
      ValidStep st st'
  | keep (st st' : RoundState) (sel : List String) (pd : PendingDraw)
      (hpd : st.pendingDraw = some pd)
      (hnd : sel.Nodup)
      (hsub : ∀ x ∈ sel, x ∈ pd.drawnCards)
      (h : confirmKeepSelection st sel = .ok st') : ValidStep st st'
  | discard (st st' : RoundState) (sel : List String)
      (hnd : sel.Nodup)
      (hsub : ∀ x ∈ sel, x ∈ st.hand)
      (h : discardSelectedFromHand st sel = .ok st') : ValidStep st st'
  | powerup (st st' : RoundState) (rand : Nat → Nat) (mode : PowerupMode)
      (sel : List String)
      (hnd : sel.Nodup)
      (hsub : ∀ x ∈ sel, x ∈ st.hand)
      (h : confirmPlayDiscardDraw st rand mode sel = .ok st') : ValidStep st st'

/-! ## Example states used by witnesses and counterexamples -/

def dpC3 : List String := ["TIME_RED::0001", "TIME_RED::0002"]

def discC3 : List String :=
  ["TIME_ORANGE::0026", "TIME_ORANGE::0027", "TIME_YELLOW::0041",
   "VETO::0060", "MOVE::0066"]

def stC4 : RoundState :=
  { drawPile := ["TIME_BLUE::0054"]
    discardPile := ["TIME_GREEN::0051"]
    hand := ["TIME_RED::0003"]
    pendingDraw := some ⟨["TIME_RED::0001", "TIME_ORANGE::0026"], 1⟩
    activeQuestionId := some 7
    questions := [7] }

def stC5 : RoundState :=
  { drawPile := ["TIME_ORANGE::0030", "TIME_YELLOW::0045"]
    discardPile := []
    hand := ["DISCARD_1_DRAW_2::0067", "TIME_RED::0001"]
    pendingDraw := none
    activeQuestionId := none
    questions := [] }

def stLocked : RoundState :=
  { drawPile := []
    discardPile := []
    hand := []
    pendingDraw := none
    activeQuestionId := some 1
    questions := [1] }

/-! ## Conservation lemmas -/

theorem cons_set_perm {α : Type} (t : List α) (m : Nat) (a y : α)
    (h : t[m]? = some y) : (y :: t.set m a).Perm (a :: t) := by
  induction t generalizing m with
  | nil => simp at h
  | cons b t2 ih =>
    cases m with
    | zero =>
      simp only [List.getElem?_cons_zero, Option.some.injEq] at h
      subst h
      simpa using List.Perm.swap a b t2
    | succ k =>
      simp only [List.getElem?_cons_succ] at h
      have h1 : (y :: (b :: t2).set (k + 1) a) = y :: b :: t2.set k a := by simp
      rw [h1]
      exact ((List.Perm.swap b y (t2.set k a)).trans
        ((ih k h).cons b)).trans (List.Perm.swap a b t2)

theorem set_set_perm {α : Type} (l : List α) (i j : Nat) (x y : α)
    (hx : l[i]? = some x) (hy : l[j]? = some y) :
    ((l.set i y).set j x).Perm l := by
  induction l generalizing i j with
  | nil => simp at hx
  | cons a t ih =>
    cases i with
    | zero =>
      simp only [List.getElem?_cons_zero, Option.some.injEq] at hx
      subst hx
      cases j with
      | zero => simp
      | succ m =>
        simp only [List.getElem?_cons_succ] at hy
        simpa using cons_set_perm t m a y hy
    | succ n =>
      simp only [List.getElem?_cons_succ] at hx
      cases j with
      | zero =>
        simp only [List.getElem?_cons_zero, Option.some.injEq] at hy
        subst hy
        simpa using cons_set_perm t n a x hx
      | succ m =>
        simp only [List.getElem?_cons_succ] at hy
        simpa using (ih n m hx hy).cons a

theorem swapL_perm {α : Type} (l : List α) (i j : Nat) : (swapL l i j).Perm l := by
  cases hx : l[i]? with
  | none => cases hy : l[j]? <;> simp [swapL, hx, hy]
  | some x =>
    cases hy : l[j]? with
    | none => simp [swapL, hx, hy]
    | some y => simpa [swapL, hx, hy] using set_set_perm l i j x y hx hy

theorem fisherYatesAux_perm {α : Type} (rand : Nat → Nat) :
    ∀ (n : Nat) (a : List α), (fisherYatesAux rand n a).Perm a
  | 0, a => List.Perm.refl a
  | n + 1, a =>
    (fisherYatesAux_perm rand n _).trans (swapL_perm a (n + 1) _)

theorem shuffle_perm {α : Type} (rand : Nat → Nat) (arr : List α) :
    (shuffle rand arr).Perm arr :=
  fisherYatesAux_perm rand (arr.length - 1) arr

theorem shuffle_length {α : Type} (rand : Nat → Nat) (arr : List α) :
    (shuffle rand arr).length = arr.length :=
  (shuffle_perm rand arr).length_eq

/-- Pile-level conservation of a single draw, shared by the claims
about `drawWithReshuffle` and the round-level invariant. -/
theorem drawWithReshuffle_conserve (rand : Nat → Nat) (dp disc : List String)
    (n : Nat) :
    ((drawWithReshuffle rand dp disc n).drawn
      ++ (drawWithReshuffle rand dp disc n).newDraw
      ++ (drawWithReshuffle rand dp disc n).newDiscard).Perm (dp ++ disc) := by
  unfold drawWithReshuffle
  by_cases h : dp.length < n ∧ 0 < disc.length
  · rw [if_pos h]
    simp only [List.append_nil, List.take_append_drop]
    exact List.Perm.append_left dp (shuffle_perm rand disc)
  · rw [if_neg h]
    simp [List.take_append_drop]

theorem drawWithReshuffle_drawn_length (rand : Nat → Nat) (dp disc : List String)
    (n : Nat) :
    (drawWithReshuffle rand dp disc n).drawn.length
      = min n (dp.length + disc.length) := by
  unfold drawWithReshuffle
  by_cases h : dp.length < n ∧ 0 < disc.length
  · rw [if_pos h]
    simp [List.length_take, shuffle_length]
  · rw [if_neg h]
    simp only [List.length_take]
    rw [Decidable.not_and_iff_or_not] at h
    rcases h with h | h <;> omega


theorem contains_eq_decide_mem (l : List String) (a : String) :
    l.contains a = decide (a ∈ l) :=
  List.elem_eq_mem a l

theorem uniqAux_eq_self (l : List String) : ∀ seen : List String, l.Nodup →
    (∀ x ∈ l, x ∉ seen) → uniqAux seen l = l := by
  induction l with
  | nil => intro seen _ _; rfl
  | cons c rest ih =>
    intro seen hnd hmem
    have hc : seen.contains c = false := by
      have := hmem c (List.mem_cons_self c rest)
      simp [contains_eq_decide_mem, this]
    simp only [uniqAux, hc, Bool.false_eq_true, if_false]
    rw [ih (c :: seen) hnd.of_cons]
    intro x hx
    simp only [List.mem_cons, not_or]
    exact ⟨fun he => hnd.not_mem (he ▸ hx), hmem x (List.mem_cons_of_mem c hx)⟩

/-- `Array.from(new Set(arr))` is the identity on duplicate-free input. -/
theorem uniq_eq_self (l : List String) (h : l.Nodup) : uniq l = l :=
  uniqAux_eq_self l [] h (by simp)

theorem filter_mem_perm (l sel : List String) (hl : l.Nodup) (hs : sel.Nodup)
    (hsub : ∀ x ∈ sel, x ∈ l) :
    (l.filter fun c => sel.contains c).Perm sel := by
  rw [List.perm_ext_iff_of_nodup (hl.filter _) hs]
  intro a
  simp only [List.mem_filter, contains_eq_decide_mem, decide_eq_true_eq]
  exact ⟨fun h => h.2, fun h => ⟨hsub a h, h⟩⟩

/-- Counting form of "a duplicate-free selection splits a
duplicate-free list into kept and unkept parts". -/
theorem split_count (l sel : List String) (hl : l.Nodup) (hs : sel.Nodup)
    (hsub : ∀ x ∈ sel, x ∈ l) (a : String) :
    l.count a = (l.filter fun c => !(sel.contains c)).count a + sel.count a := by
  have hpart := List.perm_iff_count.mp
    (List.filter_append_perm (fun c => sel.contains c) l) a
  have hmem := List.perm_iff_count.mp (filter_mem_perm l sel hl hs hsub) a
  simp only [List.count_append] at hpart
  omega

theorem removeCostLoop_true (p : String) (sel : List String) :
    ∀ l : List String,
      removeCostLoop p sel true l = l.filter fun c => !(sel.contains c) := by
  intro l
  induction l with
  | nil => rfl
  | cons c rest ih =>
    simp only [removeCostLoop]
    rw [if_neg (by simp)]
    by_cases hc : sel.contains c
    · simp [hc, List.filter_cons, ih]
    · simp [hc, List.filter_cons, ih]

theorem removeCostLoop_false_count (p : String) (sel : List String) (a : String) :
    ∀ l : List String, l.Nodup → p ∈ l → sel.contains p = false →
      l.count a = (removeCostLoop p sel false l).count a
        + (l.filter fun c => sel.contains c).count a + List.count a [p] := by
  intro l
  induction l with
  | nil => intro _ hp _; simp at hp
  | cons c rest ih =>
    intro hnd hp hps
    by_cases hc : c = p
    · subst hc
      simp only [removeCostLoop]
      rw [if_pos (by simp), removeCostLoop_true]
      have hpart : rest.count a
          = (rest.filter fun c => sel.contains c).count a
            + (rest.filter fun c => !(sel.contains c)).count a := by
        have h0 := List.perm_iff_count.mp
          (List.filter_append_perm (fun c => sel.contains c) rest) a
        simpa [List.count_append] using h0.symm
      simp only [List.filter_cons, hps, Bool.false_eq_true, if_false,
        List.count_cons, List.count_nil, List.count_singleton]
      omega
    · have hp' : p ∈ rest := by
        rcases List.mem_cons.mp hp with h | h
        · exact absurd h.symm hc
        · exact h
      have key := ih hnd.of_cons hp' hps
      simp only [removeCostLoop]
      rw [if_neg (by simp [hc])]
      by_cases hsc : sel.contains c
      · rw [if_pos hsc]
        simp only [List.filter_cons, hsc, if_true, List.count_cons,
          List.count_singleton] at key ⊢
        omega
      · rw [if_neg hsc]
        simp only [List.filter_cons, hsc, Bool.false_eq_true, if_false,
          List.count_cons, List.count_singleton] at key ⊢
        omega

set_option maxRecDepth 20000 in
theorem buildHiderDeck_length : buildHiderDeck.length = 100 := by decide

set_option maxRecDepth 20000 in
theorem buildHiderDeck_nodup : buildHiderDeck.Nodup := by decide

theorem drawWithReshuffle_count (rand : Nat → Nat) (dp disc : List String)
    (n : Nat) (a : String) :
    (drawWithReshuffle rand dp disc n).drawn.count a
      + (drawWithReshuffle rand dp disc n).newDraw.count a
      + (drawWithReshuffle rand dp disc n).newDiscard.count a
    = dp.count a + disc.count a := by
  have h := List.perm_iff_count.mp (drawWithReshuffle_conserve rand dp disc n) a
  simp only [List.count_append] at h
  omega

/-- Any single valid operation preserves the multiset of cards of the
round, provided the round currently holds no duplicate card. -/
theorem step_count_eq {st st' : RoundState} (h : ValidStep st st')
    (hnd : (cards st).Nodup) (a : String) :
    (cards st').count a = (cards st).count a := by
  cases h with
  | openQ qid h =>
    unfold sendQuestion at h
    split at h
    · simp at h
    · simp only [TxResult.ok.injEq] at h
      subst h
      rfl
  | answer rand category opts h =>
    unfold submitAnswerAndCreateDraw at h
    split at h
    · simp at h
    · next hP =>
      simp only [TxResult.ok.injEq] at h
      subst h
      have hc := drawWithReshuffle_count rand st.drawPile st.discardPile
        (getDrawKeep category opts).draw a
      simp only [cards, pendingCards, hP, List.count_append, List.count_nil]
      omega
  | keep sel pd hpd hselnd hsub h =>
    unfold confirmKeepSelection at h
    split at h
    · simp at h
    · next pd2 heq =>
      rw [hpd] at heq
      injection heq with heq
      subst heq
      split at h
      · simp at h
      · simp only [TxResult.ok.injEq] at h
        subst h
        have hpc : pendingCards st = pd.drawnCards := by simp [pendingCards, hpd]
        have h3 : (st.hand ++ pd.drawnCards).Nodup := by
          have hnd2 := hnd
          simp only [cards, List.append_assoc] at hnd2
          have := (hnd2.of_append_right).of_append_right
          rwa [hpc] at this
        obtain ⟨handNd, drawnNd, hdisj⟩ := List.nodup_append.mp h3
        have hdisj2 : List.Disjoint st.hand sel := fun a ha hs => hdisj ha (hsub a hs)
        have hns : (st.hand ++ sel).Nodup :=
          List.nodup_append.mpr ⟨handNd, hselnd, hdisj2⟩
        have hsplit := split_count pd.drawnCards sel drawnNd hselnd hsub a
        simp only [cards, pendingCards, hpd, List.count_append, List.count_nil,
          uniq_eq_self _ hns]
        omega
  | discard sel hselnd hsub h =>
    unfold discardSelectedFromHand at h
    split at h
    · simp at h
    · next hP =>
      split at h
      · simp only [TxResult.ok.injEq] at h
        subst h
        rfl
      · simp only [TxResult.ok.injEq] at h
        subst h
        have handNd : st.hand.Nodup := by
          have hnd2 := hnd
          simp only [cards, List.append_assoc] at hnd2
          exact ((hnd2.of_append_right).of_append_right).of_append_left
        have hsplit := split_count st.hand sel handNd hselnd hsub a
        simp only [cards, pendingCards, hP, List.count_append, List.count_nil]
        omega
  | powerup rand mode sel hselnd hsub h =>
    unfold confirmPlayDiscardDraw at h
    split at h
    · simp at h
    · next hP =>
      split at h
      · simp at h
      · next h1 =>
        split at h
        · simp at h
        · next h2 =>
          split at h
          · simp at h
          · split at h
            · simp at h
            · simp only [TxResult.ok.injEq] at h
              subst h
              have hpmem : modeCard mode ∈ st.hand := by
                have := not_not.mp h1
                rw [contains_eq_decide_mem] at this
                exact of_decide_eq_true this
              have hps : sel.contains (modeCard mode) = false := by
                cases hsc : sel.contains (modeCard mode) with
                | false => rfl
                | true => exact absurd hsc h2
              have handNd : st.hand.Nodup := by
                have hnd2 := hnd
                simp only [cards, List.append_assoc] at hnd2
                exact ((hnd2.of_append_right).of_append_right).of_append_left
              have hrc := removeCostLoop_false_count (modeCard mode) sel a st.hand
                handNd hpmem hps
              have hfm := List.perm_iff_count.mp
                (filter_mem_perm st.hand sel handNd hselnd hsub) a
              have hdc := drawWithReshuffle_count rand st.drawPile
                (st.discardPile ++ (modeCard mode :: sel)) (modeDrawGain mode) a
              simp only [cards, pendingCards, hP, List.count_append, List.count_cons,
                List.count_nil, List.count_singleton] at hrc hdc ⊢
              omega

/-- Any single valid operation preserves "the round's cards are a
permutation of the untouched 100-card deck". -/
theorem step_preserves_perm {st st' : RoundState} (h : ValidStep st st')
    (hperm : (cards st).Perm buildHiderDeck) : (cards st').Perm buildHiderDeck := by
  have hnd : (cards st).Nodup := hperm.symm.nodup buildHiderDeck_nodup
  exact (List.perm_iff_count.mpr fun a => step_count_eq h hnd a).trans hperm

theorem initState_perm (rand : Nat → Nat) :
    (cards (initState rand)).Perm buildHiderDeck := by
  simp only [cards, initState, pendingCards, List.append_nil]
  exact shuffle_perm rand buildHiderDeck

/-! ## Claim theorems -/

/-- C1: for every sequence of valid operations on a round (opening a
question, answering a question and drawing, confirming a keep,
discarding from hand, playing a discard-for-draw powerup), the
multiset union of draw pile, discard pile, hider's hand, and the
cards of an `AWAITING_PICK` pending draw stays a permutation of the
original 100-card deck — in particular 100 cards — at every
observation point; no operation creates or destroys a card. -/
theorem C1_card_conservation (rand : Nat → Nat) (st : RoundState)
    (h : Relation.ReflTransGen ValidStep (initState rand) st) :
    (cards st).Perm buildHiderDeck ∧ (cards st).length = 100 := by
  have hp : (cards st).Perm buildHiderDeck := by
    induction h with
    | refl => exact initState_perm rand
    | tail hsteps hstep ih => exact step_preserves_perm hstep ih
  exact ⟨hp, hp.length_eq.trans buildHiderDeck_length⟩

theorem C1_card_conservation_witness :
    (cards (initState fun _ => 0)).Perm buildHiderDeck ∧
      (cards (initState fun _ => 0)).length = 100 :=
  C1_card_conservation (fun _ => 0) (initState fun _ => 0)
    Relation.ReflTransGen.refl

/-- C2 counterexample: with a single remaining card and `n = 2`, the
draw does not fail — `drawWithReshuffle` has no failure outcome at
all — and silently returns 1 card, fewer than `n`, contradicting
"fails with InsufficientCardsError … never a short draw". -/
theorem C2_counterexample :
    (drawWithReshuffle (fun _ => 0) ["TIME_RED::0001"] [] 2).drawn.length = 1 ∧
    (drawWithReshuffle (fun _ => 0) ["TIME_RED::0001"] [] 2).drawn.length < 2 := by
  decide

/-- C2 (amended): `drawWithReshuffle` never fails; it returns
`min n (total)` cards — exactly `n` when `n` cards are available
across both piles, and a silent short draw of all remaining cards
otherwise. -/
theorem C2_draw_returns_min (rand : Nat → Nat) (dp disc : List String) (n : Nat) :
    (drawWithReshuffle rand dp disc n).drawn.length
        = min n (dp.length + disc.length) ∧
    (n ≤ dp.length + disc.length →
      (drawWithReshuffle rand dp disc n).drawn.length = n) := by
  have h := drawWithReshuffle_drawn_length rand dp disc n
  exact ⟨h, fun hle => by omega⟩

theorem C2_draw_returns_min_witness :
    (drawWithReshuffle (fun _ => 0)
      ["TIME_RED::0001", "TIME_RED::0002", "TIME_RED::0003"] [] 2).drawn.length = 2 :=
  (C2_draw_returns_min (fun _ => 0)
    ["TIME_RED::0001", "TIME_RED::0002", "TIME_RED::0003"] [] 2).2 (by decide)

/-- C3: when the draw pile is shorter than `n` and the discard pile is
non-empty, the whole discard pile is shuffled and appended to the
draw pile, the discard pile is emptied, and the first `n` cards of
the extended pile are drawn, the rest remaining; consequently
`min n total` cards are drawn and `total - n` remain. -/
theorem C3_reshuffle_before_draw (rand : Nat → Nat) (dp disc : List String)
    (n : Nat) (h1 : dp.length < n) (h2 : 0 < disc.length) :
    (drawWithReshuffle rand dp disc n).newDiscard = [] ∧
    (drawWithReshuffle rand dp disc n).drawn = (dp ++ shuffle rand disc).take n ∧
    (drawWithReshuffle rand dp disc n).newDraw = (dp ++ shuffle rand disc).drop n ∧
    (shuffle rand disc).Perm disc ∧
    (drawWithReshuffle rand dp disc n).drawn.length
        = min n (dp.length + disc.length) ∧
    (drawWithReshuffle rand dp disc n).newDraw.length
        = dp.length + disc.length - n := by
  unfold drawWithReshuffle
  rw [if_pos ⟨h1, h2⟩]
  refine ⟨rfl, rfl, rfl, shuffle_perm rand disc, ?_, ?_⟩
  · simp [List.length_take, shuffle_length]
  · simp [List.length_drop, shuffle_length]

theorem C3_reshuffle_before_draw_witness :
    (drawWithReshuffle (fun _ => 0) dpC3 discC3 4).newDiscard = [] ∧
    (drawWithReshuffle (fun _ => 0) dpC3 discC3 4).drawn
        = (dpC3 ++ shuffle (fun _ => 0) discC3).take 4 ∧
    (drawWithReshuffle (fun _ => 0) dpC3 discC3 4).newDraw
        = (dpC3 ++ shuffle (fun _ => 0) discC3).drop 4 ∧
    (shuffle (fun _ => 0) discC3).Perm discC3 ∧
    (drawWithReshuffle (fun _ => 0) dpC3 discC3 4).drawn.length
        = min 4 (dpC3.length + discC3.length) ∧
    (drawWithReshuffle (fun _ => 0) dpC3 discC3 4).newDraw.length
        = dpC3.length + discC3.length - 4 :=
  C3_reshuffle_before_draw (fun _ => 0) dpC3 discC3 4 (by decide) (by decide)

/-- C4 counterexample: a selection of the right length containing an id
that is not among the drawn cards is accepted by
`confirmKeepSelection` and mutates the state (the foreign id even
enters the hand while both drawn cards are discarded), where the
claim requires a `WrongKeepCountError` with no mutation. -/
theorem C4_counterexample :
    confirmKeepSelection stC4 ["VETO::0060"]
      = .ok { drawPile := ["TIME_BLUE::0054"]
              discardPile := ["TIME_GREEN::0051", "TIME_RED::0001", "TIME_ORANGE::0026"]
              hand := ["TIME_RED::0003", "VETO::0060"]
              pendingDraw := none
              activeQuestionId := none
              questions := [7] } := by
  decide

/-- C4 (amended): with a pending draw awaiting its pick,
`confirmKeepSelection` fails with `WrongKeepCountError` — mutating
nothing — iff the selection's length differs from the pending
draw's keep count; membership of the chosen ids in the drawn cards
and freedom from duplicates are not checked by the operation (they
are enforced upstream by the selection UI). -/
theorem C4_keep_validation (st : RoundState) (pd : PendingDraw)
    (sel : List String) (hpd : st.pendingDraw = some pd) :
    (confirmKeepSelection st sel = .error .WrongKeepCountError
      ↔ sel.length ≠ pd.keepCount) := by
  simp only [confirmKeepSelection, hpd]
  by_cases hlen : sel.length ≠ pd.keepCount
  · rw [if_pos hlen]; simp [hlen]
  · rw [if_neg hlen]; simp [hlen]

theorem C4_keep_validation_witness :
    (confirmKeepSelection stC4 [] = .error .WrongKeepCountError
      ↔ ([] : List String).length ≠ 1) :=
  C4_keep_validation stC4 ⟨["TIME_RED::0001", "TIME_ORANGE::0026"], 1⟩ [] rfl

/-- C5 (code bug witness): a hand holding a real
`DISCARD_1_DRAW_2::0067` deck card — which the page's own entry
gating recognises via `baseType` — is rejected by
`confirmPlayDiscardDraw`, because the guard compares full card ids
against the bare base-type string `"DISCARD_1_DRAW_2"`; the
transaction the claim describes never happens for deck cards. -/
theorem C5_powerup_basetype_mismatch :
    (stC5.hand.filter fun c => baseType c == "DISCARD_1_DRAW_2").length = 1 ∧
    confirmPlayDiscardDraw stC5 (fun _ => 0) .discard1draw2 ["TIME_RED::0001"]
      = .error .PowerupNotInHandError := by
  decide

/-- C6: a round with an active question rejects `sendQuestion` with
`TurnLockedError` (inserting nothing), `sendQuestion` succeeds
exactly when no question is outstanding, a successful open locks the
round so a second open fails, answering preserves the lock, and a
successful `confirmKeepSelection` clears it so a subsequent open
succeeds. -/
theorem C6_turn_lock :
    (∀ (st : RoundState) (q : Nat), st.activeQuestionId.isSome →
        sendQuestion st q = .error .TurnLockedError) ∧
    (∀ (st : RoundState) (q : Nat), st.activeQuestionId = none →
        sendQuestion st q
          = .ok { st with activeQuestionId := some q,
                          questions := st.questions ++ [q] }) ∧
    (∀ (st st' : RoundState) (q : Nat), sendQuestion st q = .ok st' →
        st.activeQuestionId = none ∧
        ∀ q2 : Nat, sendQuestion st' q2 = .error .TurnLockedError) ∧
    (∀ (st st' : RoundState) (rand : Nat → Nat) (category : Category)
        (opts : Option Bool),
        submitAnswerAndCreateDraw st rand category opts = .ok st' →
        st'.activeQuestionId = st.activeQuestionId) ∧
    (∀ (st st' : RoundState) (sel : List String),
        confirmKeepSelection st sel = .ok st' →
        st'.activeQuestionId = none ∧
        ∀ q2 : Nat, ∃ st'', sendQuestion st' q2 = .ok st'') := by
  refine ⟨?_, ?_, ?_, ?_, ?_⟩
  · intro st q hs
    cases hA : st.activeQuestionId with
    | none => rw [hA] at hs; simp at hs
    | some x => simp [sendQuestion, hA]
  · intro st q h
    simp [sendQuestion, h]
  · intro st st' q h
    unfold sendQuestion at h
    split at h
    · simp at h
    · next hA =>
      simp only [TxResult.ok.injEq] at h
      subst h
      exact ⟨hA, fun q2 => rfl⟩
  · intro st st' rand category opts h
    unfold submitAnswerAndCreateDraw at h
    split at h
    · simp at h
    · simp only [TxResult.ok.injEq] at h
      subst h
      rfl
  · intro st st' sel h
    unfold confirmKeepSelection at h
    split at h
    · simp at h
    · split at h
      · simp at h
      · simp only [TxResult.ok.injEq] at h
        subst h
        exact ⟨rfl, fun q2 => ⟨_, rfl⟩⟩

theorem C6_turn_lock_witness :
    sendQuestion stLocked 2 = .error .TurnLockedError :=
  C6_turn_lock.1 stLocked 2 (by decide)

/-- C7: the full reward table — base MATCHING 3/1, MEASURING 3/1,
RADAR 2/1, THERMO 2/1, PHOTO 1/1, TENTACLE 4/2, and with the
overflowing-chalice modifier MATCHING 4/1, MEASURING 4/1,
THERMO 3/1, RADAR 3/1, PHOTO 2/1, TENTACLE 5/2; in particular
TENTACLE with no modifier gives draw 4 keep 2 and PHOTO with the
modifier gives draw 2 keep 1. -/
theorem C7_reward_table :
    getDrawKeep .MATCHING none = ⟨3, 1⟩ ∧ getDrawKeep .MEASURING none = ⟨3, 1⟩ ∧
    getDrawKeep .RADAR none = ⟨2, 1⟩ ∧ getDrawKeep .THERMO none = ⟨2, 1⟩ ∧
    getDrawKeep .PHOTO none = ⟨1, 1⟩ ∧ getDrawKeep .TENTACLE none = ⟨4, 2⟩ ∧
    getDrawKeep .MATCHING (some true) = ⟨4, 1⟩ ∧
    getDrawKeep .MEASURING (some true) = ⟨4, 1⟩ ∧
    getDrawKeep .THERMO (some true) = ⟨3, 1⟩ ∧
    getDrawKeep .RADAR (some true) = ⟨3, 1⟩ ∧
    getDrawKeep .PHOTO (some true) = ⟨2, 1⟩ ∧
    getDrawKeep .TENTACLE (some true) = ⟨5, 2⟩ ∧
    getDrawKeep .TENTACLE (some false) = ⟨4, 2⟩ ∧
    getDrawKeep .PHOTO (some false) = ⟨1, 1⟩ := by
  decide

/-- C8 counterexample: for the raw category string "MIRAGE" the
source's switch chain returns no value at all (`undefined`, here
`none`); it does not fail with an `InvalidCategoryError` — no such
error exists in the code — diverging from the spec-modelled
`specDrawKeepFor`, which does. -/
theorem C8_counterexample :
    getDrawKeepRaw "MIRAGE" none = none ∧
    getDrawKeepRaw "MIRAGE" (some true) = none ∧
    specDrawKeepFor "MIRAGE" none = .error .InvalidCategoryError :=
  ⟨by decide, by decide, by rfl⟩

/-- C8 (amended): `getDrawKeep` is pure and total over the six defined
categories — agreeing with the raw string switch on each of them,
independent of any other state — and for any raw input outside the
six categories the switch chain returns no value (`undefined`)
rather than an `InvalidCategoryError`. -/
theorem C8_totality :
    (∀ (c : Category) (opts : Option Bool),
        getDrawKeepRaw (categoryName c) opts = some (getDrawKeep c opts)) ∧
    (∀ (s : String) (opts : Option Bool), s ∉ categoryNames →
        getDrawKeepRaw s opts = none) := by
  constructor
  · intro c opts
    rcases opts with _ | b
    · cases c <;> rfl
    · cases b <;> cases c <;> rfl
  · intro s opts hns
    simp only [categoryNames, List.mem_cons, List.not_mem_nil, or_false,
      not_or] at hns
    obtain ⟨h1, h2, h3, h4, h5, h6⟩ := hns
    rcases opts with _ | b
    · simp [getDrawKeepRaw, h1, h2, h3, h4, h5, h6]
    · cases b <;> simp [getDrawKeepRaw, h1, h2, h3, h4, h5, h6]

theorem C8_totality_witness :
    getDrawKeepRaw "OBELISK" (some true) = none :=
  C8_totality.2 "OBELISK" (some true) (by decide)

set_option maxRecDepth 20000 in
/-- C9: `buildHiderDeck` returns exactly 100 pairwise-distinct card
identifiers; classifying by base type yields exactly the fixed
composition (25/15/10/3/2 time cards, 4/4/2/1/4/4/2 powerups, one of
each of the 24 curses) in contiguous serial ranges per base type in
the fixed source order; serials are one monotone counter 1..100; and
the defensive 100-card check passes. -/
theorem C9_deck_integrity :
    buildHiderDeck.length = 100 ∧
    buildHiderDeck.Nodup ∧
    buildHiderDeckChecked = some buildHiderDeck ∧
    buildHiderDeck.map baseType = expectedBaseTypes ∧
    (buildHiderDeck.map baseType).count "TIME_RED" = 25 ∧
    (buildHiderDeck.map baseType).count "TIME_ORANGE" = 15 ∧
    (buildHiderDeck.map baseType).count "TIME_YELLOW" = 10 ∧
    (buildHiderDeck.map baseType).count "TIME_GREEN" = 3 ∧
    (buildHiderDeck.map baseType).count "TIME_BLUE" = 2 ∧
    (buildHiderDeck.map baseType).count "RANDOMIZE" = 4 ∧
    (buildHiderDeck.map baseType).count "VETO" = 4 ∧
    (buildHiderDeck.map baseType).count "DUPLICATE" = 2 ∧
    (buildHiderDeck.map baseType).count "MOVE" = 1 ∧
    (buildHiderDeck.map baseType).count "DISCARD_1_DRAW_2" = 4 ∧
    (buildHiderDeck.map baseType).count "DISCARD_2_DRAW_3" = 4 ∧
    (buildHiderDeck.map baseType).count "DRAW_1_EXPAND_HAND" = 2 ∧
    (CURSES.all fun c => (buildHiderDeck.map baseType).count c == 1) = true ∧
    buildHiderDeck.map serialOf = List.range' 1 100 := by
  decide

/-- C10: the three outputs of `drawWithReshuffle` — drawn, new draw
pile, new discard pile — concatenated are a permutation of the input
piles concatenated, for every input and every count `n`, including
short draws: no card is dropped, duplicated, or invented. -/
theorem C10_draw_pile_conservation (rand : Nat → Nat) (dp disc : List String)
    (n : Nat) :
    ((drawWithReshuffle rand dp disc n).drawn
      ++ (drawWithReshuffle rand dp disc n).newDraw
      ++ (drawWithReshuffle rand dp disc n).newDiscard).Perm (dp ++ disc) :=
  drawWithReshuffle_conserve rand dp disc n

end JetLag
